import Mathlib

/-!
Verification of the evidence-grounded backstory-consistency pipeline.

This file gives a shallow embedding of the Python sources
(`graph_creator_agent/graph_store.py`, `graph_creator_agent/extractor.py`,
`graph_creator_agent/main.py`, `answering_agent/classifier.py`,
`answering_agent/nli_checker.py`, `answering_agent/justification.py`,
`Graphrag/pathway/retriever.py`, `test_pipeline.py`, `main.py`) and proves or
refutes the specified properties of those functions.

Modelling conventions:
* Python dictionaries with string keys become insertion-ordered association
  lists (`AttrMap`); assignment updates the first matching key in place or
  appends a new binding, exactly as a `dict` does.
* The attribute values the graph code ever stores are strings and lists of
  strings (`relation`, `type`, `evidence_ids`), modelled by `PyVal`.
* External model calls (the LLM, the NLI cross-encoder, the reranker) are
  parameters of the embedded functions; a call that can raise is modelled with
  `Except`/`Option`.  Scores are rationals, standing for the floating point
  values whose exact numerics none of the verified properties depend on.
-/

/-- An attribute value as stored in a node or edge attribute dictionary of the
knowledge graph: either a Python string or a Python list of strings.  These are
the only attribute shapes `graph_store.py` ever writes (`type`, `relation`,
`evidence_ids`, and GraphML round-tripped versions of them). -/
inductive PyVal where
  | vstr (s : String)
  | vlist (l : List String)
deriving DecidableEq

/-- A Python attribute dictionary: insertion-ordered association list with
unique keys maintained by `dictSet`. -/
abbrev AttrMap := List (String × PyVal)

/-- Dictionary lookup (`d[k]` / `d.get(k)`): first binding of the key. -/
def dictGet (m : AttrMap) (k : String) : Option PyVal :=
  match m with
  | [] => none
  | (k2, v) :: rest => if k2 = k then some v else dictGet rest k

/-- Dictionary assignment (`d[k] = v`): update the first binding in place, or
append a fresh binding, preserving insertion order like a Python `dict`. -/
def dictSet (m : AttrMap) (k : String) (v : PyVal) : AttrMap :=
  match m with
  | [] => [(k, v)]
  | (k2, v2) :: rest => if k2 = k then (k2, v) :: rest else (k2, v2) :: dictSet rest k v

/-- Membership test for a key (`k in d`). -/
def dictHas (m : AttrMap) (k : String) : Bool :=
  (dictGet m k).isSome

theorem dictGet_dictSet_same (m : AttrMap) (k : String) (v : PyVal) :
    dictGet (dictSet m k v) k = some v := by
  induction m with
  | nil => simp [dictSet, dictGet]
  | cons p rest ih =>
    obtain ⟨k2, v2⟩ := p
    by_cases h : k2 = k
    · simp [dictSet, dictGet, h]
    · simp [dictSet, dictGet, h, ih]

theorem dictGet_dictSet_ne (m : AttrMap) (k k2 : String) (v : PyVal) (h : k2 ≠ k) :
    dictGet (dictSet m k v) k2 = dictGet m k2 := by
  induction m with
  | nil => simp [dictSet, dictGet, Ne.symm h]
  | cons p rest ih =>
    obtain ⟨k3, v3⟩ := p
    by_cases h3 : k3 = k
    · subst h3
      simp [dictSet, dictGet, Ne.symm h]
    · by_cases h4 : k3 = k2 <;> simp [dictSet, dictGet, h, h3, h4, ih]

/-- The edge list of a directed graph, keyed by `(subject, object)`. -/
abbrev EdgeList := List ((String × String) × AttrMap)

/-- Lookup of an edge's attribute dictionary. -/
def edgesLookup (es : EdgeList) (k : String × String) : Option AttrMap :=
  match es with
  | [] => none
  | (k2, a) :: rest => if k2 = k then some a else edgesLookup rest k

/-- Replace the attribute dictionary of an edge (appending when the edge is
absent; the code only calls this for keys it has just observed). -/
def edgesSet (es : EdgeList) (k : String × String) (a : AttrMap) : EdgeList :=
  match es with
  | [] => [(k, a)]
  | (k2, a2) :: rest => if k2 = k then (k2, a) :: rest else (k2, a2) :: edgesSet rest k a

theorem edgesLookup_edgesSet_same (es : EdgeList) (k : String × String) (a : AttrMap) :
    edgesLookup (edgesSet es k a) k = some a := by
  induction es with
  | nil => simp [edgesSet, edgesLookup]
  | cons p rest ih =>
    obtain ⟨k2, a2⟩ := p
    by_cases h : k2 = k
    · simp [edgesSet, edgesLookup, h]
    · simp [edgesSet, edgesLookup, h, ih]

/-- The node list: node name to attribute dictionary, insertion ordered. -/
abbrev NodeList := List (String × AttrMap)

/-- Lookup of a node's attribute dictionary. -/
def nodesLookup (ns : NodeList) (n : String) : Option AttrMap :=
  match ns with
  | [] => none
  | (n2, a) :: rest => if n2 = n then some a else nodesLookup rest n

/-- The in-memory `networkx.DiGraph` as used by `graph_store.py`: named nodes
and `(subject, object)`-keyed edges, each with an attribute dictionary, plus
graph-level attributes (`graph_summary`), which are always strings. -/
structure PyGraph where
  nodes : NodeList
  edges : EdgeList
  gattrs : List (String × String)
deriving DecidableEq

/-- The empty graph (`nx.DiGraph()`). -/
def pyEmptyGraph : PyGraph := ⟨[], [], []⟩

/-- Node membership (`n in graph`). -/
def hasNode (g : PyGraph) (n : String) : Bool :=
  (nodesLookup g.nodes n).isSome

/-- `graph.add_node(n, **attrs)` for a fresh node. -/
def addNode (g : PyGraph) (n : String) (attrs : AttrMap) : PyGraph :=
  { g with nodes := g.nodes ++ [(n, attrs)] }

/-- Edge membership (`graph.has_edge(u, v)`). -/
def hasEdge (g : PyGraph) (u v : String) : Bool :=
  (edgesLookup g.edges (u, v)).isSome

/-- The attribute dictionary of an edge (`graph[u][v]`); the default is never
reached on the paths that use it, which guard with `has_edge`. -/
def getEdgeAttrs (g : PyGraph) (u v : String) : AttrMap :=
  (edgesLookup g.edges (u, v)).getD []

/-- Write back the (mutated) attribute dictionary of an edge. -/
def setEdgeAttrs (g : PyGraph) (u v : String) (a : AttrMap) : PyGraph :=
  { g with edges := edgesSet g.edges (u, v) a }

/-- `graph.add_edge(u, v, **attrs)`; only reached when the edge is absent. -/
def addEdge (g : PyGraph) (u v : String) (attrs : AttrMap) : PyGraph :=
  { g with edges := edgesSet g.edges (u, v) attrs }

theorem hasEdge_addNode (g : PyGraph) (n : String) (a : AttrMap) (u v : String) :
    hasEdge (addNode g n a) u v = hasEdge g u v := rfl

theorem getEdgeAttrs_addNode (g : PyGraph) (n : String) (a : AttrMap) (u v : String) :
    getEdgeAttrs (addNode g n a) u v = getEdgeAttrs g u v := rfl

theorem getEdgeAttrs_setEdgeAttrs_same (g : PyGraph) (u v : String) (a : AttrMap) :
    getEdgeAttrs (setEdgeAttrs g u v a) u v = a := by
  simp [getEdgeAttrs, setEdgeAttrs, edgesLookup_edgesSet_same]

/-- One triplet as the dictionaries handled by `graph_store.py`: the four keys
always present, plus the `evidence_ids` key that `deduplicate_triplets` may add
while merging (`none` models the key being absent). -/
structure TripletD where
  subject : String
  relation : String
  object : String
  evidence_id : String
  evidence_ids : Option (List String)
deriving DecidableEq

/-- A triplet dictionary fresh from the extractor: only the four base keys. -/
def tripletOf (s r o e : String) : TripletD := ⟨s, r, o, e, none⟩

/-- The `(subject, relation, object)` key used by `deduplicate_triplets`. -/
def dedupKey (t : TripletD) : String × String × String := (t.subject, t.relation, t.object)

/-- The `triplet_map` of `deduplicate_triplets`: insertion-ordered. -/
abbrev TripletMap := List ((String × String × String) × TripletD)

/-- Lookup in `triplet_map`. -/
def tripletMapLookup (m : TripletMap) (k : String × String × String) : Option TripletD :=
  match m with
  | [] => none
  | (k2, t) :: rest => if k2 = k then some t else tripletMapLookup rest k

/-- In-place update of a `triplet_map` entry. -/
def tripletMapUpdate (m : TripletMap) (k : String × String × String) (t : TripletD) :
    TripletMap :=
  match m with
  | [] => [(k, t)]
  | (k2, t2) :: rest =>
    if k2 = k then (k2, t) :: rest else (k2, t2) :: tripletMapUpdate rest k t

/-- The loop body of `deduplicate_triplets` (graph_store.py lines 110-141).
On a repeated `(subject, relation, object)` key whose incoming `evidence_id` is
not in the entry's `evidence_ids` list (`[]` when the key is absent), the entry
gains `evidence_ids = [existing.evidence_id]` if absent and then appends the
incoming id.  Relation conflicts are only logged, so they do not appear here. -/
def dedupInsert (m : TripletMap) (t : TripletD) : TripletMap :=
  let key := dedupKey t
  match tripletMapLookup m key with
  | some existing =>
    if t.evidence_id ∈ existing.evidence_ids.getD [] then m
    else
      let base := match existing.evidence_ids with
        | none => [existing.evidence_id]
        | some l => l
      tripletMapUpdate m key { existing with evidence_ids := some (base ++ [t.evidence_id]) }
  | none => m ++ [(key, t)]

/-- `deduplicate_triplets` (graph_store.py lines 93-164): fold the batch into
`triplet_map` and return its values in insertion order. -/
def deduplicate_triplets (triplets : List TripletD) : List TripletD :=
  (triplets.foldl dedupInsert []).map (fun p => p.2)

/-- The evidence-id list the `add_triplets` loop derives from one triplet:
the `evidence_ids` key when deduplication added it, else the single
`evidence_id` (graph_store.py lines 184-188). -/
def tripletEvidenceList (t : TripletD) : List String :=
  match t.evidence_ids with
  | some l => l
  | none => [t.evidence_id]

/-- `if n not in graph: graph.add_node(n, type="entity")`
(graph_store.py lines 190-194). -/
def ensureNode (g : PyGraph) (n : String) : PyGraph :=
  if hasNode g n then g else addNode g n [("type", PyVal.vstr "entity")]

theorem hasEdge_ensureNode (g : PyGraph) (n u v : String) :
    hasEdge (ensureNode g n) u v = hasEdge g u v := by
  unfold ensureNode
  split <;> rfl

theorem getEdgeAttrs_ensureNode (g : PyGraph) (n u v : String) :
    getEdgeAttrs (ensureNode g n) u v = getEdgeAttrs g u v := by
  unfold ensureNode
  split <;> rfl

/-- The existing-edge update of `add_triplets` (graph_store.py lines 198-211):
normalise the `evidence_ids` attribute to a list (create it when missing, wrap
a non-list scalar, with an empty falsy scalar giving `[]`), then append each
incoming id not already present. -/
def mergeEdgeEvidence (ed : AttrMap) (incoming : List String) : AttrMap :=
  let ed1 := match dictGet ed "evidence_ids" with
    | none => dictSet ed "evidence_ids" (PyVal.vlist [])
    | some (PyVal.vlist _) => ed
    | some (PyVal.vstr s) =>
      dictSet ed "evidence_ids" (PyVal.vlist (if s ≠ "" then [s] else []))
  incoming.foldl (fun ed eid =>
    match dictGet ed "evidence_ids" with
    | some (PyVal.vlist l) =>
      if eid ∈ l then ed else dictSet ed "evidence_ids" (PyVal.vlist (l ++ [eid]))
    | _ => ed) ed1

/-- The per-triplet body of the `add_triplets` loop
(graph_store.py lines 179-218).  The relation-mismatch branch only logs, so an
existing edge's `relation` attribute is never written. -/
def addOneTriplet (g : PyGraph) (t : TripletD) : PyGraph :=
  let g2 := ensureNode (ensureNode g t.subject) t.object
  if hasEdge g2 t.subject t.object then
    setEdgeAttrs g2 t.subject t.object
      (mergeEdgeEvidence (getEdgeAttrs g2 t.subject t.object) (tripletEvidenceList t))
  else
    addEdge g2 t.subject t.object
      [("relation", PyVal.vstr t.relation),
       ("evidence_ids", PyVal.vlist (tripletEvidenceList t))]

/-- `add_triplets` (graph_store.py lines 167-220): deduplicate the batch, then
merge each triplet into the graph. -/
def add_triplets (g : PyGraph) (triplets : List TripletD) : PyGraph :=
  (deduplicate_triplets triplets).foldl addOneTriplet g

/-- C2: refuted.  A batch that contains the same
`(subject, relation, object, evidence_id)` triplet twice makes
`deduplicate_triplets` seed `evidence_ids` with the first occurrence's id and
append the (equal) incoming id without comparing the two, and `add_triplets`
then creates the new edge with that list: starting from the empty graph (whose
edges trivially satisfy the invariant), after one call the edge `(A, B)`
carries `evidence_ids == ["ev1", "ev1"]`, a duplicate. -/
theorem add_triplets_duplicate_batch_violates_invariant :
    dictGet
      (getEdgeAttrs
        (add_triplets pyEmptyGraph [tripletOf "A" "r" "B" "ev1", tripletOf "A" "r" "B" "ev1"])
        "A" "B")
      "evidence_ids" = some (PyVal.vlist ["ev1", "ev1"]) ∧
    ¬ List.Nodup ["ev1", "ev1"] := by
  constructor
  · decide
  · decide

theorem mergeEdgeEvidence_single (ed : AttrMap) (l : List String) (ev : String)
    (hev : dictGet ed "evidence_ids" = some (PyVal.vlist l)) :
    mergeEdgeEvidence ed [ev] =
      if ev ∈ l then ed else dictSet ed "evidence_ids" (PyVal.vlist (l ++ [ev])) := by
  unfold mergeEdgeEvidence
  rw [hev]
  simp only [List.foldl]
  rw [hev]

/-- C3: on an edge that already exists with relation `r` and a well-formed
`evidence_ids` list, merging a later triplet for the same `(subject, object)`
pair with a different relation leaves `relation` untouched (the mismatch is
only logged) and appends the new evidence id exactly when it is not already
recorded. -/
theorem add_triplets_first_relation_wins
    (g : PyGraph) (s o r r2 ev : String) (l : List String)
    (hrel : dictGet (getEdgeAttrs g s o) "relation" = some (PyVal.vstr r))
    (hev : dictGet (getEdgeAttrs g s o) "evidence_ids" = some (PyVal.vlist l))
    (hedge : hasEdge g s o = true)
    (hne : r2 ≠ r) :
    dictGet (getEdgeAttrs (add_triplets g [tripletOf s r2 o ev]) s o) "relation"
      = some (PyVal.vstr r) ∧
    dictGet (getEdgeAttrs (add_triplets g [tripletOf s r2 o ev]) s o) "evidence_ids"
      = some (PyVal.vlist (if ev ∈ l then l else l ++ [ev])) := by
  have hE : hasEdge (ensureNode (ensureNode g s) o) s o = true := by
    rwa [hasEdge_ensureNode, hasEdge_ensureNode]
  have hA : getEdgeAttrs (ensureNode (ensureNode g s) o) s o = getEdgeAttrs g s o := by
    rw [getEdgeAttrs_ensureNode, getEdgeAttrs_ensureNode]
  have e1 : add_triplets g [tripletOf s r2 o ev]
      = setEdgeAttrs (ensureNode (ensureNode g s) o) s o
          (mergeEdgeEvidence (getEdgeAttrs g s o) [ev]) := by
    show addOneTriplet g (tripletOf s r2 o ev) = _
    simp only [addOneTriplet, tripletOf, hE, if_true, hA]
    rfl
  rw [e1, getEdgeAttrs_setEdgeAttrs_same,
    mergeEdgeEvidence_single (getEdgeAttrs g s o) l ev hev]
  by_cases hm : ev ∈ l
  · simp [hm, hrel, hev]
  · constructor
    · rw [if_neg hm, dictGet_dictSet_ne _ _ _ _ (by decide)]
      exact hrel
    · rw [if_neg hm, if_neg hm, dictGet_dictSet_same]

/-- Witness for C3 at the spec's concrete scenario: merging
`(A, "is", B, ev1)` and then `(A, "works_as", B, ev2)` into the empty graph
yields the single edge `(A, B)` with relation `"is"` and
`evidence_ids == ["ev1", "ev2"]`. -/
theorem add_triplets_first_relation_wins_witness :
    dictGet
      (getEdgeAttrs
        (add_triplets (add_triplets pyEmptyGraph [tripletOf "A" "is" "B" "ev1"])
          [tripletOf "A" "works_as" "B" "ev2"]) "A" "B") "relation"
      = some (PyVal.vstr "is") ∧
    dictGet
      (getEdgeAttrs
        (add_triplets (add_triplets pyEmptyGraph [tripletOf "A" "is" "B" "ev1"])
          [tripletOf "A" "works_as" "B" "ev2"]) "A" "B") "evidence_ids"
      = some (PyVal.vlist ["ev1", "ev2"]) := by
  obtain ⟨h1, h2⟩ := add_triplets_first_relation_wins
    (add_triplets pyEmptyGraph [tripletOf "A" "is" "B" "ev1"])
    "A" "B" "is" "works_as" "ev2" ["ev1"]
    (by decide) (by decide) (by decide) (by decide)
  refine ⟨h1, ?_⟩
  rw [h2]
  decide

/-- Whether a Python call with `numPositional` positional arguments and the
keyword arguments `kwargNames` binds against a `def` whose parameter list is
`params`.  The functions modelled here declare no defaults and no
`*args`/`**kwargs`, so binding succeeds exactly when the positional arguments
do not outnumber the parameters, every keyword names a parameter not already
bound positionally, and every remaining parameter receives a keyword.
Otherwise the call raises `TypeError`. -/
def pyCallBindsOk (params : List String) (numPositional : Nat)
    (kwargNames : List String) : Bool :=
  decide (numPositional ≤ params.length)
  && (params.drop numPositional).all (fun p => kwargNames.contains p)
  && kwargNames.all (fun k => (params.drop numPositional).contains k)

/-- The parameter list of `generate_justification`
(answering_agent/justification.py lines 126-133). -/
def generate_justification_params : List String :=
  ["book_name", "character_name", "backstory", "graph_summary",
   "character_summary", "target_label"]

/-- The keyword-argument names used at the disagreement-path call of
`generate_justification` in `test_pipeline.py` lines 135-143. -/
def test_pipeline_justification_kwargs : List String :=
  ["book_name", "character_name", "backstory", "narrative_summary",
   "full_graph_text", "character_summary", "target_label"]

/-- C1: the disagreement path cannot run.  The `test_pipeline.py` call of
`generate_justification` passes keyword arguments `narrative_summary` and
`full_graph_text` that are not parameters of the function (and leaves its
required `graph_summary` parameter unbound), so Python raises `TypeError`
before any verdict-aligned reasoning is produced; the per-row `except` then
drops the row without emitting any final verdict. -/
theorem test_pipeline_justification_call_raises :
    pyCallBindsOk generate_justification_params 0 test_pipeline_justification_kwargs
      = false ∧
    "narrative_summary" ∈ test_pipeline_justification_kwargs ∧
    "narrative_summary" ∉ generate_justification_params ∧
    "graph_summary" ∈ generate_justification_params ∧
    "graph_summary" ∉ test_pipeline_justification_kwargs := by
  decide

/-- The parameter list of `generate_triplets`
(graph_creator_agent/extractor.py line 14). -/
def extractor_generate_triplets_params : List String := ["evidence_list", "llm"]

/-- The number of positional arguments `create_graph` passes to
`generate_triplets` (graph_creator_agent/main.py line 58:
`generate_triplets(new_evidences, llm, character_name)`). -/
def create_graph_generate_triplets_num_args : Nat := 3

/-- C5: any row whose evidence survives the cache filter crashes graph
synthesis.  `create_graph` calls `generate_triplets` with three positional
arguments while the function accepts two, so Python raises `TypeError`; the
exception propagates uncaught through `create_graph` to the per-row handler in
`main.main`, which skips the row without producing any verdict. -/
theorem create_graph_generate_triplets_call_raises :
    pyCallBindsOk extractor_generate_triplets_params
      create_graph_generate_triplets_num_args [] = false ∧
    extractor_generate_triplets_params.length
      < create_graph_generate_triplets_num_args := by
  decide

/-- One entry of the `details` list built by `check_nli`
(answering_agent/nli_checker.py lines 81-86). -/
structure NLIDetail where
  evidence_prefix : String
  contradiction : ℚ
  entailment : ℚ
  neutral : ℚ
deriving DecidableEq

/-- The `NLIScores` TypedDict (answering_agent/nli_checker.py lines 12-16). -/
structure NLIScores where
  entailment_avg : ℚ
  contradiction_max : ℚ
  contradiction_avg : ℚ
  details : List NLIDetail
deriving DecidableEq

/-- `check_nli` (answering_agent/nli_checker.py lines 32-94).  The external
cross-encoder together with the softmax over its three raw class scores is the
parameter `nliProbs`, mapping the `(premise, hypothesis)` pair to the
`(contradiction, entailment, neutral)` probabilities (the DeBERTa label
order 0/1/2).  With a single scored pair the code returns the entailment
probability as the average and the contradiction probability as both the
maximum and the average. -/
def check_nli (nliProbs : String → String → ℚ × ℚ × ℚ)
    (backstory graph_summary : String) : NLIScores :=
  if graph_summary = "" ∨ graph_summary = "No graph data available." then
    ⟨0, 0, 0, []⟩
  else
    let p := nliProbs graph_summary backstory
    ⟨p.2.1, p.1, p.1, [⟨"Graph Summary", p.1, p.2.1, p.2.2⟩]⟩

/-- C7: on empty evidence (an empty graph summary, or the placeholder emitted
when no graph data exists) `check_nli` returns exactly the all-zero metrics
with an empty `details` list, and the result does not depend on the NLI model,
which the early return never invokes. -/
theorem check_nli_empty_evidence (p1 p2 : String → String → ℚ × ℚ × ℚ)
    (backstory : String) :
    check_nli p1 backstory "" = ⟨0, 0, 0, []⟩ ∧
    check_nli p1 backstory "No graph data available." = ⟨0, 0, 0, []⟩ ∧
    check_nli p1 backstory "" = check_nli p2 backstory "" := by
  refine ⟨?_, ?_, ?_⟩ <;> simp [check_nli]

/-- One point returned by the Qdrant vector search
(`client.query_points(...).points` in Graphrag/pathway/retriever.py):
the point id, the optional similarity score, and the payload fields the
retriever reads (`payload or {}` with `.get` defaults). -/
structure QdrantHit where
  hitId : String
  score : Option ℚ
  payload_id : Option String
  payload_text : Option String
  payload_chunk_index : Option String
  payload_metadata : Option String
deriving DecidableEq

/-- One dictionary of the list returned by `retrieve_topk`
(Graphrag/pathway/retriever.py lines 110-121). -/
structure RetrievedChunk where
  id : String
  text : String
  score : ℚ
  vector_score : ℚ
  chunk_index : Option String
  metadata : Option String
deriving DecidableEq

/-- `retrieve_topk` (Graphrag/pathway/retriever.py lines 60-127), with the
external pieces as parameters: `search_result` is what the vector search
returned for the embedded query, and `reranker` is the cross-encoder, mapping
a `(query, text)` pair to its relevance score (`CrossEncoder.predict` scores
each pair independently).  An empty candidate set returns immediately; the
sort is Python's stable `list.sort(key=score, reverse=True)`, modelled by a
stable merge sort with the descending comparison. -/
def retrieve_topk (reranker : String → String → ℚ)
    (search_result : List QdrantHit) (query : String) (k : Nat) :
    List RetrievedChunk :=
  if search_result.isEmpty then []
  else
    let reranked_results := search_result.map (fun hit =>
      let text := hit.payload_text.getD ""
      { id := hit.payload_id.getD hit.hitId
        text := text
        score := reranker query text
        vector_score := hit.score.getD 0
        chunk_index := hit.payload_chunk_index
        metadata := hit.payload_metadata })
    (reranked_results.mergeSort (fun a b => b.score ≤ a.score)).take k

/-- C9: every `retrieve_topk` result has length at most `k`, is sorted in
descending order of the reranker score, and each returned item's `score` field
is exactly the reranker's score for `(query, item.text)`; and when the vector
search yields no candidates, the result is empty and independent of the
reranker, which is never invoked. -/
theorem retrieve_topk_spec (reranker : String → String → ℚ)
    (search_result : List QdrantHit) (query : String) (k : Nat) :
    (retrieve_topk reranker search_result query k).length ≤ k ∧
    List.Pairwise (fun a b => b.score ≤ a.score)
      (retrieve_topk reranker search_result query k) ∧
    (∀ r ∈ retrieve_topk reranker search_result query k,
      r.score = reranker query r.text) ∧
    (∀ reranker2 : String → String → ℚ,
      retrieve_topk reranker [] query k = [] ∧
      retrieve_topk reranker [] query k = retrieve_topk reranker2 [] query k) := by
  refine ⟨?_, ?_, ?_, fun r2 => ⟨rfl, rfl⟩⟩
  · unfold retrieve_topk
    split
    · simp
    · exact List.length_take_le _ _
  · unfold retrieve_topk
    split
    · simp
    · refine List.Pairwise.sublist (List.take_sublist _ _) ?_
      have h : ∀ l : List RetrievedChunk,
          List.Pairwise (fun a b => (decide (b.score ≤ a.score)) = true)
            (l.mergeSort (fun a b => decide (b.score ≤ a.score))) :=
        fun l => List.sorted_mergeSort
          (fun a b c hab hbc => by
            simp only [decide_eq_true_eq] at hab hbc ⊢
            exact le_trans hbc hab)
          (fun a b => by
            simp only [Bool.or_eq_true, decide_eq_true_eq]
            exact le_total b.score a.score) l
      refine List.Pairwise.imp ?_ (h _)
      intro a b hab
      simpa using hab
  · intro r hr
    unfold retrieve_topk at hr
    split at hr
    · simp at hr
    · have hsub := (List.take_sublist k _).mem hr
      have hmem := List.mem_mergeSort.mp hsub
      obtain ⟨hit, _, hEq⟩ := List.mem_map.mp hmem
      subst hEq
      rfl

/-- A parsed JSON value (the result of Python's `json.loads`).  Numbers are
represented exactly as rationals. -/
inductive Json where
  | jnull
  | jbool (b : Bool)
  | jnum (q : ℚ)
  | jstr (s : String)
  | jarr (elems : List Json)
  | jobj (fields : List (String × Json))

/-- The opening curly bracket character. -/
def lcurly : Char := Char.ofNat 123

/-- The closing curly bracket character. -/
def rcurly : Char := Char.ofNat 125

/-- Lowercase hexadecimal digit, as printed by Python's `\u%04x` escapes. -/
def hexDigitChar (n : Nat) : Char :=
  if n < 10 then Char.ofNat (48 + n) else Char.ofNat (87 + n)

/-- Four lowercase hex digits of a code unit below `0x10000`. -/
def hex4 (n : Nat) : List Char :=
  [hexDigitChar (n / 4096 % 16), hexDigitChar (n / 256 % 16),
   hexDigitChar (n / 16 % 16), hexDigitChar (n % 16)]

/-- `json.dumps` escaping of one character with the default `ensure_ascii`:
`"` and `\` and the five short escapes, printable ASCII kept verbatim, every
other character as `\uXXXX` (a surrogate pair above the basic plane). -/
def jsonEscapeChar (c : Char) : List Char :=
  if c = '"' then ['\\', '"']
  else if c = '\\' then ['\\', '\\']
  else if c.toNat = 10 then ['\\', 'n']
  else if c.toNat = 13 then ['\\', 'r']
  else if c.toNat = 9 then ['\\', 't']
  else if c.toNat = 8 then ['\\', 'b']
  else if c.toNat = 12 then ['\\', 'f']
  else if 32 ≤ c.toNat ∧ c.toNat ≤ 126 then [c]
  else if c.toNat < 65536 then '\\' :: 'u' :: hex4 c.toNat
  else
    '\\' :: 'u' :: hex4 (55296 + (c.toNat - 65536) / 1024)
      ++ '\\' :: 'u' :: hex4 (56320 + (c.toNat - 65536) % 1024)

/-- `json.dumps` escaping of a character sequence. -/
def jsonEscapeChars : List Char → List Char
  | [] => []
  | c :: cs => jsonEscapeChar c ++ jsonEscapeChars cs

/-- A `json.dumps`-encoded string literal, quotes included. -/
def quoteChars (s : String) : List Char :=
  '"' :: (jsonEscapeChars s.data ++ ['"'])

/-- JSON whitespace. -/
def isJsonWs (c : Char) : Bool :=
  c.toNat == 32 || c.toNat == 9 || c.toNat == 10 || c.toNat == 13

/-- Skip leading JSON whitespace. -/
def skipWs : List Char → List Char
  | [] => []
  | c :: cs => if isJsonWs c then skipWs cs else c :: cs

/-- Value of one hexadecimal digit (either case, as `json.loads` accepts). -/
def hexVal? (c : Char) : Option Nat :=
  if 48 ≤ c.toNat ∧ c.toNat ≤ 57 then some (c.toNat - 48)
  else if 97 ≤ c.toNat ∧ c.toNat ≤ 102 then some (c.toNat - 87)
  else if 65 ≤ c.toNat ∧ c.toNat ≤ 70 then some (c.toNat - 55)
  else none

/-- Four hex digits of a `\uXXXX` escape. -/
def parseHex4 : List Char → Option (Nat × List Char)
  | c1 :: c2 :: c3 :: c4 :: rest =>
    match hexVal? c1, hexVal? c2, hexVal? c3, hexVal? c4 with
    | some d1, some d2, some d3, some d4 =>
      some (4096 * d1 + 256 * d2 + 16 * d3 + d4, rest)
    | _, _, _, _ => none
  | _ => none

/-- One string escape after the backslash, as decoded by `json.loads`,
surrogate pairs combined.  A lone surrogate escape is rejected here (Python
would produce a string containing a surrogate code point, which a Lean `Char`
cannot hold; `json.dumps` output never contains one). -/
def parseEscape : List Char → Option (Char × List Char)
  | [] => none
  | c :: rest =>
    if c = '"' then some ('"', rest)
    else if c = '\\' then some ('\\', rest)
    else if c = '/' then some ('/', rest)
    else if c = 'n' then some (Char.ofNat 10, rest)
    else if c = 'r' then some (Char.ofNat 13, rest)
    else if c = 't' then some (Char.ofNat 9, rest)
    else if c = 'b' then some (Char.ofNat 8, rest)
    else if c = 'f' then some (Char.ofNat 12, rest)
    else if c = 'u' then
      match parseHex4 rest with
      | none => none
      | some (n, rest2) =>
        if 55296 ≤ n ∧ n < 56320 then
          match rest2 with
          | c2 :: c3 :: rest3 =>
            if c2 = '\\' ∧ c3 = 'u' then
              match parseHex4 rest3 with
              | none => none
              | some (m, rest4) =>
                if 56320 ≤ m ∧ m < 57344 then
                  some (Char.ofNat (65536 + (n - 55296) * 1024 + (m - 56320)), rest4)
                else none
            else none
          | _ => none
        else if 56320 ≤ n ∧ n < 57344 then none
        else some (Char.ofNat n, rest2)
    else none

/-- Body of a JSON string literal after the opening quote: the decoded
characters and the text after the closing quote.  Unescaped control
characters are rejected (`json.loads` strict mode).  The fuel only needs to
exceed the number of decoded characters. -/
def parseStrBody (fuel : Nat) (cs : List Char) : Option (List Char × List Char) :=
  match fuel with
  | 0 => none
  | fuel + 1 =>
    match cs with
    | [] => none
    | c :: rest =>
      if c = '"' then some ([], rest)
      else if c = '\\' then
        match parseEscape rest with
        | none => none
        | some (ch, rest2) =>
          match parseStrBody fuel rest2 with
          | none => none
          | some (s, rest3) => some (ch :: s, rest3)
      else if c.toNat < 32 then none
      else
        match parseStrBody fuel rest with
        | none => none
        | some (s, rest2) => some (c :: s, rest2)

/-- Consume leading decimal digits. -/
def takeDigits : List Char → (List Nat × List Char)
  | [] => ([], [])
  | c :: cs =>
    if 48 ≤ c.toNat ∧ c.toNat ≤ 57 then
      let p := takeDigits cs
      ((c.toNat - 48) :: p.1, p.2)
    else ([], c :: cs)

/-- Decimal value of a digit list. -/
def digitsToNat (ds : List Nat) : Nat := ds.foldl (fun a d => 10 * a + d) 0

/-- Optional fraction part of a JSON number. -/
def parseFrac (cs : List Char) : Option (ℚ × List Char) :=
  match cs with
  | [] => some (0, [])
  | c :: r =>
    if c = '.' then
      match takeDigits r with
      | ([], _) => none
      | (ds, rest) => some ((digitsToNat ds : ℚ) / ((10 : ℚ) ^ ds.length), rest)
    else some (0, cs)

/-- Optional exponent part of a JSON number, as a power-of-ten multiplier. -/
def parseExp (cs : List Char) : Option (ℚ × List Char) :=
  match cs with
  | [] => some (1, [])
  | c :: r =>
    if c = 'e' ∨ c = 'E' then
      let p : Int × List Char := match r with
        | c2 :: r3 => if c2 = '-' then (-1, r3) else if c2 = '+' then (1, r3) else (1, r)
        | [] => (1, [])
      match takeDigits p.2 with
      | ([], _) => none
      | (ds, rest) => some ((10 : ℚ) ^ (p.1 * (digitsToNat ds : Int)), rest)
    else some (1, cs)

/-- A JSON number (`-?(0|[1-9][0-9]*)(\.[0-9]+)?([eE][-+]?[0-9]+)?`). -/
def parseNum (cs : List Char) : Option (ℚ × List Char) :=
  let p : Bool × List Char := match cs with
    | c :: rest => if c = '-' then (true, rest) else (false, cs)
    | [] => (false, [])
  match takeDigits p.2 with
  | ([], _) => none
  | (ds, rest) =>
    if 1 < ds.length ∧ ds.headI = 0 then none
    else
      match parseFrac rest with
      | none => none
      | some (frac, rest2) =>
        match parseExp rest2 with
        | none => none
        | some (mul, rest3) =>
          some ((if p.1 then (-1 : ℚ) else 1) * ((digitsToNat ds : ℚ) + frac) * mul, rest3)

mutual
/-- One JSON value, by first character dispatch, as `json.loads` does.  The
fuel bounds the bracket-nesting recursion; string bodies carry their own
(always sufficient) fuel. -/
def parseVal (fuel : Nat) (cs0 : List Char) : Option (Json × List Char) :=
  match fuel with
  | 0 => none
  | fuel + 1 =>
    match skipWs cs0 with
    | [] => none
    | c :: rest =>
      if c = '"' then
        match parseStrBody (rest.length + 1) rest with
        | none => none
        | some (s, rest2) => some (Json.jstr (String.mk s), rest2)
      else if c = '[' then
        match skipWs rest with
        | [] => none
        | c2 :: rest2 =>
          if c2 = ']' then some (Json.jarr [], rest2)
          else
            match parseArrElems fuel (c2 :: rest2) with
            | none => none
            | some (vs, rest3) => some (Json.jarr vs, rest3)
      else if c = lcurly then
        match skipWs rest with
        | [] => none
        | c2 :: rest2 =>
          if c2 = rcurly then some (Json.jobj [], rest2)
          else
            match parseObjFields fuel (c2 :: rest2) with
            | none => none
            | some (fs, rest3) => some (Json.jobj fs, rest3)
      else if c = 't' then
        match rest with
        | 'r' :: 'u' :: 'e' :: rest2 => some (Json.jbool true, rest2)
        | _ => none
      else if c = 'f' then
        match rest with
        | 'a' :: 'l' :: 's' :: 'e' :: rest2 => some (Json.jbool false, rest2)
        | _ => none
      else if c = 'n' then
        match rest with
        | 'u' :: 'l' :: 'l' :: rest2 => some (Json.jnull, rest2)
        | _ => none
      else
        match parseNum (c :: rest) with
        | none => none
        | some (q, rest2) => some (Json.jnum q, rest2)
termination_by structural fuel

/-- The elements of a non-empty JSON array, up to and including `]`. -/
def parseArrElems (fuel : Nat) (cs : List Char) : Option (List Json × List Char) :=
  match fuel with
  | 0 => none
  | fuel + 1 =>
    match parseVal fuel cs with
    | none => none
    | some (v, rest) =>
      match skipWs rest with
      | [] => none
      | c :: rest2 =>
        if c = ',' then
          match parseArrElems fuel rest2 with
          | none => none
          | some (vs, rest3) => some (v :: vs, rest3)
        else if c = ']' then some ([v], rest2)
        else none
termination_by structural fuel

/-- The fields of a non-empty JSON object, up to and including the closing
curly bracket. -/
def parseObjFields (fuel : Nat) (cs : List Char) :
    Option (List (String × Json) × List Char) :=
  match fuel with
  | 0 => none
  | fuel + 1 =>
    match skipWs cs with
    | [] => none
    | c :: rest =>
      if c = '"' then
        match parseStrBody (rest.length + 1) rest with
        | none => none
        | some (key, rest2) =>
          match skipWs rest2 with
          | [] => none
          | c2 :: rest3 =>
            if c2 = ':' then
              match parseVal fuel rest3 with
              | none => none
              | some (v, rest4) =>
                match skipWs rest4 with
                | [] => none
                | c3 :: rest5 =>
                  if c3 = ',' then
                    match parseObjFields fuel rest5 with
                    | none => none
                    | some (fs, rest6) => some ((String.mk key, v) :: fs, rest6)
                  else if c3 = rcurly then some ([(String.mk key, v)], rest5)
                  else none
            else none
      else none
termination_by structural fuel
end

/-- `json.loads`: parse one JSON document; nothing but whitespace may follow.
Two fuel units per input character always suffice, since every two recursion
levels consume at least one character. -/
def parseTopLevel (s : String) : Option Json :=
  match parseVal (2 * s.data.length + 2) s.data with
  | none => none
  | some (v, rest) => if skipWs rest = [] then some v else none

theorem char_valid_range (c : Char) :
    c.toNat < 55296 ∨ (57343 < c.toNat ∧ c.toNat < 1114112) := by
  have h := c.valid
  unfold UInt32.isValidChar Nat.isValidChar at h
  exact h

theorem hexVal_hexDigitChar : ∀ n, n < 16 → hexVal? (hexDigitChar n) = some n := by decide

theorem parseHex4_hex4 (n : Nat) (rest : List Char) (h : n < 65536) :
    parseHex4 (hex4 n ++ rest) = some (n, rest) := by
  have h1 : n / 4096 % 16 < 16 := Nat.mod_lt _ (by norm_num)
  have h2 : n / 256 % 16 < 16 := Nat.mod_lt _ (by norm_num)
  have h3 : n / 16 % 16 < 16 := Nat.mod_lt _ (by norm_num)
  have h4 : n % 16 < 16 := Nat.mod_lt _ (by norm_num)
  have key : 4096 * (n / 4096 % 16) + 256 * (n / 256 % 16) + 16 * (n / 16 % 16) + n % 16
      = n := by omega
  simp only [hex4, List.cons_append, List.nil_append, parseHex4,
    hexVal_hexDigitChar _ h1, hexVal_hexDigitChar _ h2,
    hexVal_hexDigitChar _ h3, hexVal_hexDigitChar _ h4, key]

theorem parseStrBody_succ_backslash (fuel : Nat) (cs : List Char) :
    parseStrBody (fuel + 1) ('\\' :: cs) =
      match parseEscape cs with
      | none => none
      | some (ch, rest2) =>
        match parseStrBody fuel rest2 with
        | none => none
        | some (s, rest3) => some (ch :: s, rest3) := by
  simp [parseStrBody]

theorem parseEscape_u_astral (hi lo : Nat) (rest : List Char)
    (hs1 : 55296 ≤ hi ∧ hi < 56320) (hs2 : 56320 ≤ lo ∧ lo < 57344)
    (hhiB : hi < 65536) (hloB : lo < 65536) :
    parseEscape ('u' :: (hex4 hi ++ ('\\' :: 'u' :: (hex4 lo ++ rest))))
      = some (Char.ofNat (65536 + (hi - 55296) * 1024 + (lo - 56320)), rest) := by
  simp [parseEscape, parseHex4_hex4 _ _ hhiB, parseHex4_hex4 _ _ hloB, hs1, hs2]

/-- The decoder inverts the `json.dumps` escaper: parsing the escaped text of
`s` followed by the closing quote recovers `s` exactly. -/
theorem parseStrBody_jsonEscapeChars (s : List Char) :
    ∀ (fuel : Nat) (rest : List Char), s.length < fuel →
      parseStrBody fuel (jsonEscapeChars s ++ '"' :: rest) = some (s, rest) := by
  induction s with
  | nil =>
    intro fuel rest h
    match fuel with
    | fuel + 1 => simp [jsonEscapeChars, parseStrBody]
  | cons c cs ih =>
    intro fuel rest h
    match fuel with
    | fuel + 1 =>
      have hcs : cs.length < fuel := by
        simpa using Nat.lt_of_succ_lt_succ h
      have hih := ih fuel rest hcs
      by_cases h1 : c = '"'
      · subst h1
        simp [jsonEscapeChars, jsonEscapeChar, parseStrBody, parseEscape, hih]
      · by_cases h2 : c = '\\'
        · subst h2
          simp [jsonEscapeChars, jsonEscapeChar, parseStrBody, parseEscape, hih]
        · by_cases h3 : c.toNat = 10
          · have hc : c = Char.ofNat 10 := by rw [← h3, Char.ofNat_toNat]
            simp [jsonEscapeChars, jsonEscapeChar, parseStrBody, parseEscape,
              h1, h2, h3, hih, hc]
          · by_cases h4 : c.toNat = 13
            · have hc : c = Char.ofNat 13 := by rw [← h4, Char.ofNat_toNat]
              simp [jsonEscapeChars, jsonEscapeChar, parseStrBody, parseEscape,
                h1, h2, h3, h4, hih, hc]
            · by_cases h5 : c.toNat = 9
              · have hc : c = Char.ofNat 9 := by rw [← h5, Char.ofNat_toNat]
                simp [jsonEscapeChars, jsonEscapeChar, parseStrBody, parseEscape,
                  h1, h2, h3, h4, h5, hih, hc]
              · by_cases h6 : c.toNat = 8
                · have hc : c = Char.ofNat 8 := by rw [← h6, Char.ofNat_toNat]
                  simp [jsonEscapeChars, jsonEscapeChar, parseStrBody, parseEscape,
                    h1, h2, h3, h4, h5, h6, hih, hc]
                · by_cases h7 : c.toNat = 12
                  · have hc : c = Char.ofNat 12 := by rw [← h7, Char.ofNat_toNat]
                    simp [jsonEscapeChars, jsonEscapeChar, parseStrBody, parseEscape,
                      h1, h2, h3, h4, h5, h6, h7, hih, hc]
                  · by_cases h8 : 32 ≤ c.toNat ∧ c.toNat ≤ 126
                    · have hq : ¬ c.toNat < 32 := by omega
                      simp [jsonEscapeChars, jsonEscapeChar, parseStrBody,
                        h1, h2, h3, h4, h5, h6, h7, h8, hq, hih]
                    · by_cases h9 : c.toNat < 65536
                      · have hval := char_valid_range c
                        have hs1 : ¬ (55296 ≤ c.toNat ∧ c.toNat < 56320) := by omega
                        have hs2 : ¬ (56320 ≤ c.toNat ∧ c.toNat < 57344) := by omega
                        simp only [jsonEscapeChars, jsonEscapeChar,
                          h1, h2, h3, h4, h5, h6, h7, h8, h9,
                          if_false, if_true, ite_true, ite_false, if_neg, if_pos,
                          List.cons_append, List.append_assoc]
                        simp [parseStrBody, parseEscape,
                          parseHex4_hex4 c.toNat _ h9, hs1, hs2, Char.ofNat_toNat, hih]
                      · have hval := char_valid_range c
                        have hhi2 : 55296 + (c.toNat - 65536) / 1024 < 65536 := by omega
                        have hlo2 : 56320 + (c.toNat - 65536) % 1024 < 65536 := by omega
                        have hs1 : 55296 ≤ 55296 + (c.toNat - 65536) / 1024 ∧
                            55296 + (c.toNat - 65536) / 1024 < 56320 := by omega
                        have hs2 : 56320 ≤ 56320 + (c.toNat - 65536) % 1024 ∧
                            56320 + (c.toNat - 65536) % 1024 < 57344 := by omega
                        have harg : 65536 + (55296 + (c.toNat - 65536) / 1024 - 55296) * 1024
                            + (56320 + (c.toNat - 65536) % 1024 - 56320) = c.toNat := by
                          omega
                        simp only [jsonEscapeChars, jsonEscapeChar,
                          h1, h2, h3, h4, h5, h6, h7, h8, h9,
                          if_false, if_true, ite_true, ite_false,
                          List.cons_append, List.append_assoc]
                        rw [parseStrBody_succ_backslash,
                          parseEscape_u_astral _ _ _ hs1 hs2 hhi2 hlo2,
                          harg, Char.ofNat_toNat]
                        simp only [hih]

/-- The `", "`-separated encodings of the remaining list elements
(`json.dumps` default separators). -/
def dumpsTail : List String → List Char
  | [] => []
  | e :: es => ',' :: ' ' :: (quoteChars e ++ dumpsTail es)

/-- The characters of `json.dumps` applied to a list of strings. -/
def dumpsStringListChars (l : List String) : List Char :=
  match l with
  | [] => ['[', ']']
  | e :: es => '[' :: (quoteChars e ++ (dumpsTail es ++ [']']))

/-- `json.dumps` of a Python list of strings. -/
def dumpsStringList (l : List String) : String := String.mk (dumpsStringListChars l)

theorem jsonEscapeChar_length_pos (c : Char) : 1 ≤ (jsonEscapeChar c).length := by
  unfold jsonEscapeChar
  repeat' split
  all_goals simp [hex4]

theorem jsonEscapeChars_length_ge (s : List Char) :
    s.length ≤ (jsonEscapeChars s).length := by
  induction s with
  | nil => simp [jsonEscapeChars]
  | cons c cs ih =>
    have hc := jsonEscapeChar_length_pos c
    simp only [jsonEscapeChars, List.length_append, List.length_cons]
    omega

theorem skipWs_quote (cs : List Char) : skipWs ('"' :: cs) = '"' :: cs := by
  simp [skipWs, isJsonWs]

/-- Parsing a `json.dumps`-quoted string recovers it exactly. -/
theorem parseVal_quote (e : String) (rest : List Char) (fuel : Nat) :
    parseVal (fuel + 1) (quoteChars e ++ rest) = some (Json.jstr e, rest) := by
  have hlen : e.data.length < (jsonEscapeChars e.data ++ ('"' :: rest)).length + 1 := by
    have := jsonEscapeChars_length_ge e.data
    simp only [List.length_append, List.length_cons]
    omega
  have hbody := parseStrBody_jsonEscapeChars e.data
    ((jsonEscapeChars e.data ++ ('"' :: rest)).length + 1) rest hlen
  simp only [quoteChars, List.cons_append, List.append_assoc, List.singleton_append,
    List.nil_append]
  rw [parseVal, skipWs_quote]
  simp only [reduceIte]
  rw [hbody]

theorem skipWs_comma (cs : List Char) : skipWs (',' :: cs) = ',' :: cs := by
  simp [skipWs, isJsonWs]

theorem skipWs_rbracket (cs : List Char) : skipWs (']' :: cs) = ']' :: cs := by
  simp [skipWs, isJsonWs]

theorem skipWs_space (cs : List Char) : skipWs (' ' :: cs) = skipWs cs := by
  simp [skipWs, isJsonWs]

theorem parseVal_cons_space (fuel : Nat) (cs : List Char) :
    parseVal fuel (' ' :: cs) = parseVal fuel cs := by
  match fuel with
  | 0 => rfl
  | fuel + 1 => rw [parseVal, parseVal, skipWs_space]

theorem parseArrElems_cons_space (fuel : Nat) (cs : List Char) :
    parseArrElems fuel (' ' :: cs) = parseArrElems fuel cs := by
  match fuel with
  | 0 => rfl
  | fuel + 1 => rw [parseArrElems, parseArrElems, parseVal_cons_space]

/-- Parsing the encoded elements of a non-empty dumped string list (first
element, separators, closing bracket) recovers the elements. -/
theorem parseArrElems_dumps (es : List String) :
    ∀ (fuel : Nat) (e : String) (rest : List Char), es.length + 1 < fuel →
      parseArrElems fuel (quoteChars e ++ (dumpsTail es ++ (']' :: rest)))
        = some (Json.jstr e :: es.map Json.jstr, rest) := by
  induction es with
  | nil =>
    intro fuel e rest h
    match fuel with
    | fuel + 1 =>
      have hf : 1 ≤ fuel := by omega
      match fuel, hf with
      | fuel + 1, _ =>
        rw [parseArrElems]
        simp only [dumpsTail, List.nil_append]
        rw [parseVal_quote]
        simp only [skipWs_rbracket]
        simp [List.map]
  | cons e2 es2 ih =>
    intro fuel e rest h
    match fuel with
    | fuel + 1 =>
      have hf : 1 ≤ fuel := by omega
      match fuel, hf with
      | fuel + 1, _ =>
        rw [parseArrElems]
        simp only [dumpsTail, List.cons_append, List.append_assoc]
        rw [parseVal_quote]
        simp only [skipWs_comma]
        have hrec := ih (fuel + 1) e2 rest (by simpa using Nat.lt_of_succ_lt_succ h)
        simp only [reduceIte]
        rw [parseArrElems_cons_space]
        simp only [List.append_assoc] at hrec
        rw [hrec]
        simp [List.map]

theorem dumpsTail_length_ge (es : List String) : es.length ≤ (dumpsTail es).length := by
  induction es with
  | nil => simp [dumpsTail]
  | cons e es ih =>
    simp only [dumpsTail, List.length_cons, List.length_append]
    omega

theorem dumpsStringListChars_length_ge (l : List String) :
    l.length + 2 ≤ (dumpsStringListChars l).length := by
  match l with
  | [] => simp [dumpsStringListChars]
  | e :: es =>
    have h := dumpsTail_length_ge es
    have hq : 2 ≤ (quoteChars e).length := by
      simp only [quoteChars, List.length_cons, List.length_append]
      omega
    simp only [dumpsStringListChars, List.length_cons, List.length_append]
    omega

theorem skipWs_lbracket (cs : List Char) : skipWs ('[' :: cs) = '[' :: cs := by
  simp [skipWs, isJsonWs]

/-- Parsing a dumped string list recovers the list (as JSON strings). -/
theorem parseVal_dumpsList (l : List String) (fuel : Nat) (rest : List Char)
    (h : l.length + 2 ≤ fuel) :
    parseVal fuel (dumpsStringListChars l ++ rest)
      = some (Json.jarr (l.map Json.jstr), rest) := by
  match l with
  | [] =>
    match fuel, (by omega : 1 ≤ fuel) with
    | fuel + 1, _ =>
      rw [parseVal]
      simp [dumpsStringListChars, skipWs, isJsonWs]
  | e :: es =>
    match fuel, (by omega : 1 ≤ fuel) with
    | fuel + 1, _ =>
      have harr := parseArrElems_dumps es fuel e rest (by
        simp only [List.length_cons] at h
        omega)
      rw [parseVal]
      simp only [dumpsStringListChars, quoteChars, List.cons_append, List.append_assoc,
        List.singleton_append, List.nil_append]
      rw [skipWs_lbracket]
      simp only [reduceIte]
      rw [skipWs_quote]
      simp only [reduceIte]
      simp only [quoteChars, List.cons_append, List.append_assoc, List.singleton_append,
        List.nil_append] at harr
      rw [harr]
      simp [List.map]

/-- `json.loads` inverts `json.dumps` on lists of strings, exactly. -/
theorem parseTopLevel_dumpsStringList (l : List String) :
    parseTopLevel (dumpsStringList l) = some (Json.jarr (l.map Json.jstr)) := by
  have hlen : l.length + 2 ≤ 2 * (dumpsStringListChars l).length + 2 := by
    have := dumpsStringListChars_length_ge l
    omega
  have h := parseVal_dumpsList l (2 * (dumpsStringListChars l).length + 2) [] hlen
  rw [List.append_nil] at h
  unfold parseTopLevel dumpsStringList
  rw [show (String.mk (dumpsStringListChars l)).data = dumpsStringListChars l from rfl, h]
  simp [skipWs]

/-- Whether `json.loads` on this string yields a Python list, which is the
condition under which `_convert_graphml_attributes` replaces a string
attribute. -/
def parsesAsJsonArray (s : String) : Bool :=
  match parseTopLevel s with
  | some (Json.jarr _) => true
  | _ => false

/-- The elements of a parsed JSON array when all of them are strings. -/
def jsonStrings? : List Json → Option (List String)
  | [] => some []
  | Json.jstr s :: rest =>
    match jsonStrings? rest with
    | some l => some (s :: l)
    | none => none
  | _ => none

theorem jsonStrings_map_jstr (l : List String) :
    jsonStrings? (l.map Json.jstr) = some l := by
  induction l with
  | nil => rfl
  | cons e es ih => simp [jsonStrings?, List.map, ih]

/-- The save-side conversion of one attribute value
(graph_store.py lines 249-260): list values become their `json.dumps` string;
scalars are untouched. -/
def saveConvertVal : PyVal → PyVal
  | PyVal.vlist l => PyVal.vstr (dumpsStringList l)
  | v => v

/-- The load-side conversion of `_convert_graphml_attributes`
(graph_store.py lines 13-44) for one attribute value: a string attribute whose
text parses as a JSON list is replaced by the parsed list, any other value is
kept.  (A JSON array with a non-string member would become a Python list that
`PyVal` cannot hold; `save_graph` never writes such a string, and the
round-trip theorems' hypotheses exclude it.) -/
def loadConvertVal : PyVal → PyVal
  | PyVal.vstr s =>
    (match parseTopLevel s with
      | some (Json.jarr elems) =>
        (match jsonStrings? elems with
          | some l => PyVal.vlist l
          | none => PyVal.vstr s)
      | _ => PyVal.vstr s)
  | v => v

/-- Apply a value conversion to every binding of an attribute dictionary. -/
def convertAttrs (f : PyVal → PyVal) (m : AttrMap) : AttrMap :=
  m.map (fun kv => (kv.1, f kv.2))

/-- Apply a value conversion to every node and edge attribute of a graph
(the iteration pattern shared by `save_graph` and
`_convert_graphml_attributes`; graph-level attributes are not touched). -/
def convertGraphAttrs (f : PyVal → PyVal) (g : PyGraph) : PyGraph :=
  { g with
    nodes := g.nodes.map (fun p => (p.1, convertAttrs f p.2)),
    edges := g.edges.map (fun p => (p.1, convertAttrs f p.2)) }

/-- Assignment into the string-valued graph-attribute dictionary. -/
def sdictSet (m : List (String × String)) (k v : String) : List (String × String) :=
  match m with
  | [] => [(k, v)]
  | (k2, v2) :: rest => if k2 = k then (k2, v) :: rest else (k2, v2) :: sdictSet rest k v

/-- `save_graph` (graph_store.py lines 223-263): store the summary as a graph
attribute when non-empty (Python truthiness), then convert every list-valued
node or edge attribute of the argument graph, in place, to its JSON string.
`nx.write_graphml` then stores exactly this mutated graph (all attributes are
scalar strings, which GraphML round-trips losslessly), so the function's
result models both the caller's mutated graph object and the file content. -/
def save_graph (g : PyGraph) (graph_summary : String) : PyGraph :=
  let g1 := if graph_summary ≠ "" then
      { g with gattrs := sdictSet g.gattrs "graph_summary" graph_summary }
    else g
  convertGraphAttrs saveConvertVal g1

/-- `load_graph` on an existing readable file (graph_store.py lines 78-85):
`nx.read_graphml` returns the stored graph and
`_convert_graphml_attributes` JSON-parses its string attributes. -/
def load_graph (stored : PyGraph) : PyGraph :=
  convertGraphAttrs loadConvertVal stored

/-- One value survives the save/load conversion pair when it is a list, or a
string that does not itself parse as a JSON array. -/
def valRoundtripSafe (v : PyVal) : Bool :=
  match v with
  | PyVal.vstr s => ! parsesAsJsonArray s
  | PyVal.vlist _ => true

/-- All attribute values of the dictionary are round-trip safe. -/
def attrsRoundtripSafe (m : AttrMap) : Bool :=
  m.all (fun kv => valRoundtripSafe kv.2)

/-- No string-valued node or edge attribute of the graph parses as a JSON
array. -/
def graphRoundtripSafe (g : PyGraph) : Bool :=
  g.nodes.all (fun p => attrsRoundtripSafe p.2)
    && g.edges.all (fun p => attrsRoundtripSafe p.2)

theorem loadConvertVal_saveConvertVal (v : PyVal) (h : valRoundtripSafe v = true) :
    loadConvertVal (saveConvertVal v) = v := by
  match v with
  | PyVal.vlist l =>
    simp only [saveConvertVal, loadConvertVal, parseTopLevel_dumpsStringList,
      jsonStrings_map_jstr]
  | PyVal.vstr s =>
    simp only [valRoundtripSafe, Bool.not_eq_true'] at h
    simp only [saveConvertVal, loadConvertVal]
    unfold parsesAsJsonArray at h
    match hp : parseTopLevel s with
    | none => simp [hp]
    | some Json.jnull => simp [hp]
    | some (Json.jbool b) => simp [hp]
    | some (Json.jnum q) => simp [hp]
    | some (Json.jstr s2) => simp [hp]
    | some (Json.jobj fs) => simp [hp]
    | some (Json.jarr elems) => rw [hp] at h; simp at h

theorem convertAttrs_roundtrip (m : AttrMap) (h : attrsRoundtripSafe m = true) :
    convertAttrs loadConvertVal (convertAttrs saveConvertVal m) = m := by
  induction m with
  | nil => rfl
  | cons kv rest ih =>
    simp only [attrsRoundtripSafe, List.all_cons, Bool.and_eq_true] at h
    simp only [convertAttrs, List.map_cons, List.map_map]
    have hv := loadConvertVal_saveConvertVal kv.2 h.1
    have hrest := ih (by simp [attrsRoundtripSafe, h.2])
    simp only [convertAttrs, List.map_map] at hrest
    simp [hv, hrest]

/-- C8 (amended): the persistence round-trip is exact on every graph none of
whose string-valued attributes itself parses as a JSON list: every list
attribute is serialised by `save_graph` to its JSON text and restored by
`load_graph` to an equal list, and every other attribute is untouched.
Without that proviso the round-trip is not exact (see the counterexample). -/
theorem save_load_roundtrip_exact (g : PyGraph)
    (h : graphRoundtripSafe g = true) :
    load_graph (save_graph g "") = g := by
  simp only [graphRoundtripSafe, Bool.and_eq_true, List.all_eq_true] at h
  obtain ⟨hn, he⟩ := h
  unfold save_graph load_graph
  simp only [ne_eq, not_true_eq_false, if_false, reduceIte]
  unfold convertGraphAttrs
  cases g with
  | mk nodes edges gattrs =>
    simp only [List.map_map, PyGraph.mk.injEq]
    refine ⟨?_, ?_, trivial⟩
    · have hpt : ∀ p ∈ nodes, ((fun p => (p.1, convertAttrs loadConvertVal p.2)) ∘
          fun p => (p.1, convertAttrs saveConvertVal p.2)) p = p := by
        intro p hp
        simp only [Function.comp]
        rw [convertAttrs_roundtrip p.2 (hn p hp)]
      simpa using List.map_congr_left hpt
    · have hpt : ∀ p ∈ edges, ((fun p => (p.1, convertAttrs loadConvertVal p.2)) ∘
          fun p => (p.1, convertAttrs saveConvertVal p.2)) p = p := by
        intro p hp
        simp only [Function.comp]
        rw [convertAttrs_roundtrip p.2 (he p hp)]
      simpa using List.map_congr_left hpt

/-- A realistic stored graph: entity nodes and one edge with a relation and a
deduplicated evidence list, as `add_triplets` produces. -/
def specimenGraph : PyGraph :=
  ⟨[("A", [("type", PyVal.vstr "entity")]), ("B", [("type", PyVal.vstr "entity")])],
   [(("A", "B"),
     [("relation", PyVal.vstr "is"), ("evidence_ids", PyVal.vlist ["ev1", "ev2"])])],
   []⟩

/-- Witness for C8 at a concrete graph: the safety condition holds and the
round-trip restores the graph exactly, evidence list included. -/
theorem save_load_roundtrip_exact_witness :
    graphRoundtripSafe specimenGraph = true ∧
    load_graph (save_graph specimenGraph "") = specimenGraph :=
  ⟨by decide, save_load_roundtrip_exact specimenGraph (by decide)⟩

/-- A graph that differs from `specimenGraph` only in carrying a string
attribute whose text happens to be a JSON list. -/
def jsonishGraph : PyGraph :=
  ⟨[("A", [("type", PyVal.vstr "entity")]), ("B", [("type", PyVal.vstr "entity")])],
   [(("A", "B"),
     [("relation", PyVal.vstr "[\"x\"]"), ("evidence_ids", PyVal.vlist ["ev1"])])],
   []⟩

/-- C8: refuted as universally stated.  A scalar (string) attribute whose text
parses as a JSON list — here the edge attribute value `["x"]` stored as a
string — is turned into the parsed list by `_convert_graphml_attributes` on
load, so `load(save(G))` differs from `G`: the round-trip is not exact for
every graph whose attributes are scalars or lists. -/
theorem save_load_roundtrip_not_exact :
    load_graph (save_graph jsonishGraph "") ≠ jsonishGraph ∧
    dictGet (getEdgeAttrs jsonishGraph "A" "B") "relation"
      = some (PyVal.vstr "[\"x\"]") ∧
    dictGet (getEdgeAttrs (load_graph (save_graph jsonishGraph "")) "A" "B") "relation"
      = some (PyVal.vlist ["x"]) := by
  refine ⟨by decide, by decide, by decide⟩

/-- Whether a value is a Python list. -/
def isListVal : PyVal → Bool
  | PyVal.vlist _ => true
  | _ => false

/-- No node or edge attribute of the graph is list-valued. -/
def hasNoListAttrs (g : PyGraph) : Bool :=
  g.nodes.all (fun p => p.2.all (fun kv => ! isListVal kv.2))
    && g.edges.all (fun p => p.2.all (fun kv => ! isListVal kv.2))

/-- The attribute dictionary of a node (`graph.nodes[n]`). -/
def getNodeAttrs (g : PyGraph) (n : String) : AttrMap :=
  (nodesLookup g.nodes n).getD []

theorem isListVal_saveConvertVal (v : PyVal) : isListVal (saveConvertVal v) = false := by
  cases v <;> rfl

theorem dictGet_convertAttrs (f : PyVal → PyVal) (m : AttrMap) (k : String) :
    dictGet (convertAttrs f m) k = (dictGet m k).map f := by
  induction m with
  | nil => rfl
  | cons kv rest ih =>
    obtain ⟨k2, v⟩ := kv
    by_cases h : k2 = k <;> simp [convertAttrs, dictGet, h] <;> simpa [convertAttrs] using ih

theorem edgesLookup_map (f : AttrMap → AttrMap) (es : EdgeList) (k : String × String) :
    edgesLookup (es.map (fun p => (p.1, f p.2))) k = (edgesLookup es k).map f := by
  induction es with
  | nil => rfl
  | cons p rest ih =>
    obtain ⟨k2, a⟩ := p
    by_cases h : k2 = k <;> simp [edgesLookup, h] <;> simpa using ih

theorem nodesLookup_map (f : AttrMap → AttrMap) (ns : NodeList) (n : String) :
    nodesLookup (ns.map (fun p => (p.1, f p.2))) n = (nodesLookup ns n).map f := by
  induction ns with
  | nil => rfl
  | cons p rest ih =>
    obtain ⟨n2, a⟩ := p
    by_cases h : n2 = n <;> simp [nodesLookup, h] <;> simpa using ih

theorem getEdgeAttrs_save_graph (g : PyGraph) (s u v : String) :
    getEdgeAttrs (save_graph g s) u v = convertAttrs saveConvertVal (getEdgeAttrs g u v) := by
  unfold save_graph convertGraphAttrs getEdgeAttrs
  split <;>
    · simp only [edgesLookup_map]
      cases edgesLookup g.edges (u, v) <;> rfl

theorem getNodeAttrs_save_graph (g : PyGraph) (s n : String) :
    getNodeAttrs (save_graph g s) n = convertAttrs saveConvertVal (getNodeAttrs g n) := by
  unfold save_graph convertGraphAttrs getNodeAttrs
  split <;>
    · simp only [nodesLookup_map]
      cases nodesLookup g.nodes n <;> rfl

/-- C10: `save_graph` mutates the graph object it is given.  After the call no
node or edge attribute is list-valued any more; every attribute that was a
Python list has been replaced, in place, by its `json.dumps` string encoding;
and whenever the graph held any list-valued edge attribute (such as an edge's
`evidence_ids`), the caller's graph is no longer equal to what it was. -/
theorem save_graph_mutates_argument (g : PyGraph) (summary : String) :
    hasNoListAttrs (save_graph g summary) = true ∧
    (∀ u v k l, dictGet (getEdgeAttrs g u v) k = some (PyVal.vlist l) →
      dictGet (getEdgeAttrs (save_graph g summary) u v) k
        = some (PyVal.vstr (dumpsStringList l))) ∧
    (∀ n k l, dictGet (getNodeAttrs g n) k = some (PyVal.vlist l) →
      dictGet (getNodeAttrs (save_graph g summary) n) k
        = some (PyVal.vstr (dumpsStringList l))) ∧
    (∀ u v k l, dictGet (getEdgeAttrs g u v) k = some (PyVal.vlist l) →
      save_graph g summary ≠ g) := by
  have hall : ∀ (α : Type) (es : List (α × AttrMap)),
      (es.map (fun p => (p.1, convertAttrs saveConvertVal p.2))).all
        (fun p => p.2.all (fun kv => ! isListVal kv.2)) = true := by
    intro α es
    rw [List.all_eq_true]
    intro p hp
    obtain ⟨q, hq, rfl⟩ := List.mem_map.mp hp
    rw [List.all_eq_true]
    intro kv hkv
    obtain ⟨kv2, hkv2, rfl⟩ := List.mem_map.mp hkv
    simp [isListVal_saveConvertVal]
  have hEdge : ∀ u v k l, dictGet (getEdgeAttrs g u v) k = some (PyVal.vlist l) →
      dictGet (getEdgeAttrs (save_graph g summary) u v) k
        = some (PyVal.vstr (dumpsStringList l)) := by
    intro u v k l hl
    rw [getEdgeAttrs_save_graph, dictGet_convertAttrs, hl]
    rfl
  refine ⟨?_, hEdge, ?_, ?_⟩
  · unfold save_graph convertGraphAttrs hasNoListAttrs
    split <;> simp only [hall, Bool.and_self]
  · intro n k l hl
    rw [getNodeAttrs_save_graph, dictGet_convertAttrs, hl]
    rfl
  · intro u v k l hl heq
    have h2 := hEdge u v k l hl
    rw [heq, hl] at h2
    exact Option.noConfusion h2 (fun h => PyVal.noConfusion h)

/-- Witness for C10 at a concrete graph: after `save_graph` the edge's
`evidence_ids` list has become its JSON text, no list attribute remains, and
the caller's graph object is changed. -/
theorem save_graph_mutates_argument_witness :
    hasNoListAttrs (save_graph specimenGraph "") = true ∧
    dictGet (getEdgeAttrs (save_graph specimenGraph "") "A" "B") "evidence_ids"
      = some (PyVal.vstr "[\"ev1\", \"ev2\"]") ∧
    save_graph specimenGraph "" ≠ specimenGraph := by
  obtain ⟨h1, h2, h3, h4⟩ := save_graph_mutates_argument specimenGraph ""
  refine ⟨h1, ?_, h4 "A" "B" "evidence_ids" ["ev1", "ev2"] (by decide)⟩
  have h5 := h2 "A" "B" "evidence_ids" ["ev1", "ev2"] (by decide)
  rw [h5]
  decide

/-- The backquote character. -/
def backquoteChar : Char := Char.ofNat 96

/-- The three-backquote fence marker searched for by the parsers. -/
def tripleBacktickChars : List Char := [backquoteChar, backquoteChar, backquoteChar]

/-- Whether `pat` is a prefix of the text. -/
def startsWithChars : List Char → List Char → Bool
  | [], _ => true
  | _ :: _, [] => false
  | p :: ps, c :: cs => p = c && startsWithChars ps cs

/-- Python's `pat in text` substring containment. -/
def containsChars (pat : List Char) : List Char → Bool
  | [] => startsWithChars pat []
  | c :: cs => startsWithChars pat (c :: cs) || containsChars pat cs

/-- Index of the first occurrence of a character. -/
def findCharIdx (c : Char) : List Char → Option Nat
  | [] => none
  | c2 :: cs =>
    if c2 = c then some 0
    else
      match findCharIdx c cs with
      | some i => some (i + 1)
      | none => none

/-- Python's `str.find`: first index, `-1` when absent. -/
def pyFind (c : Char) (cs : List Char) : Int :=
  match findCharIdx c cs with
  | some i => (i : Int)
  | none => -1

/-- Index of the last occurrence of a character. -/
def rfindCharIdx (c : Char) : List Char → Option Nat
  | [] => none
  | c2 :: cs =>
    match rfindCharIdx c cs with
    | some i => some (i + 1)
    | none => if c2 = c then some 0 else none

/-- Python's `str.rfind`: last index, `-1` when absent. -/
def pyRfind (c : Char) (cs : List Char) : Int :=
  match rfindCharIdx c cs with
  | some i => (i : Int)
  | none => -1

/-- Python slicing `text[a:b]` with the usual clamping and negative-index
wrap-around. -/
def pySliceClamped (cs : List Char) (a b : Int) : List Char :=
  let n : Int := cs.length
  let a2 := if a < 0 then max 0 (n + a) else min a n
  let b2 := if b < 0 then max 0 (n + b) else min b n
  if a2 < b2 then (cs.take b2.toNat).drop a2.toNat else []

/-- The curly-brace extraction applied when the response contains a code
fence (classifier.py lines 95-99): slice from the first opening to the last
closing brace when such a span exists. -/
def braceSlice (cs : List Char) : List Char :=
  let start := pyFind lcurly cs
  let stop := pyRfind rcurly cs + 1
  if start ≠ -1 ∧ stop > start then pySliceClamped cs start stop else cs

/-- Python whitespace as stripped by `str.strip()`. -/
def isPySpace (c : Char) : Bool :=
  c.toNat == 32 || c.toNat == 9 || c.toNat == 10 || c.toNat == 13
    || c.toNat == 11 || c.toNat == 12

/-- Drop leading Python whitespace. -/
def dropLeadingWs : List Char → List Char
  | [] => []
  | c :: cs => if isPySpace c then dropLeadingWs cs else c :: cs

/-- Python's `str.strip()`. -/
def pyStrip (cs : List Char) : List Char :=
  ((dropLeadingWs ((dropLeadingWs cs).reverse)).reverse)

/-- The response preprocessing of `classify` (classifier.py lines 88-99):
strip, then brace-slice when a code fence is present. -/
def classifyPreprocess (content : String) : List Char :=
  let response_text := pyStrip content.data
  if containsChars tripleBacktickChars response_text then braceSlice response_text
  else response_text

/-- `result.get(k, default)` on a parsed JSON object (a duplicate key keeps
its last value, as `json.loads` does). -/
def jsonObjGet (fields : List (String × Json)) (k : String) : Option Json :=
  fields.foldl (fun acc kv => if kv.1 = k then some kv.2 else acc) none

/-- The label validation of `classify` (classifier.py lines 104-107):
`result.get("label", 0)` followed by `if label not in [0, 1]: label = 0`.
Python's `==` puts the JSON numbers `0`/`1` and booleans (`True == 1`) in the
allowed set; everything else collapses to the safe `0`. -/
def labelFromJson (v : Option Json) : Int :=
  match v with
  | none => 0
  | some (Json.jnum q) => if q = 0 then 0 else if q = 1 then 1 else 0
  | some (Json.jbool b) => if b then 1 else 0
  | some _ => 0

/-- The `ClassificationOutput` TypedDict (classifier.py lines 15-19), with the
`reasoning` field kept as the raw JSON value Python would store. -/
structure ClassificationOutput where
  label : Int
  reasoning : Json
  evidence_queries : List Json

/-- The body of the `try` block of `classify` (classifier.py lines 93-125):
parse the preprocessed response and assemble the output; any failure (invalid
JSON, or a non-object on which `.get` raises `AttributeError`) is an
exception caught by the `except` clause. -/
def parseClassification (response_text : List Char) : Except String ClassificationOutput :=
  match parseTopLevel (String.mk response_text) with
  | none => Except.error "invalid JSON"
  | some (Json.jobj fields) =>
    Except.ok
      ⟨labelFromJson (jsonObjGet fields "label"),
       (jsonObjGet fields "reasoning").getD (Json.jstr "No reasoning provided"),
       (match jsonObjGet fields "evidence_queries" with
         | some (Json.jarr l) => l
         | _ => [])⟩
  | some _ => Except.error "response is not a JSON object"

/-- `classify` (answering_agent/classifier.py lines 50-136).  `llmResp` is the
outcome of `llm.invoke(prompt)` at line 87: the response text, or the
exception the external call raised.  That call sits outside the
`try`/`except`, which only wraps the parsing (lines 93-136), so a model
failure propagates to the caller, while any parse failure yields the safe
default with `label = 0`, an explanatory reasoning string, and no queries. -/
def classify (llmResp : Except String String)
    (book_name character_name backstory graph_summary character_summary : String) :
    Except String ClassificationOutput :=
  match llmResp with
  | Except.error e => Except.error e
  | Except.ok content =>
    Except.ok
      (match parseClassification (classifyPreprocess content) with
        | Except.ok out => out
        | Except.error e =>
          ⟨0, Json.jstr ("Error during classification: " ++ e), []⟩)

theorem classify_ok_eq (resp b c s g cs : String) :
    classify (Except.ok resp) b c s g cs
      = Except.ok
          (match parseClassification (classifyPreprocess resp) with
            | Except.ok out => out
            | Except.error e =>
              ⟨0, Json.jstr ("Error during classification: " ++ e), []⟩) := rfl

/-- C6: refuted as stated.  When the language-model invocation itself fails
(line 87 is outside the `try`), `classify` propagates the exception to its
caller instead of returning a `ClassificationResult`. -/
theorem classify_raises_on_model_failure :
    classify (Except.error "APIConnectionError") "book" "char" "story" "graph" "summary"
      = Except.error "APIConnectionError" := rfl

/-- C6 (amended): whenever the model invocation returns a response, `classify`
returns a `ClassificationResult` and never raises; and whenever that response
cannot be parsed into the expected structure, the result is the safe default:
`label = 0`, an explanatory reasoning string, and an empty `evidence_queries`
list. -/
theorem classify_safe_on_any_response
    (book_name character_name backstory graph_summary character_summary resp : String) :
    (∃ out, classify (Except.ok resp)
        book_name character_name backstory graph_summary character_summary
      = Except.ok out) ∧
    (∀ e, parseClassification (classifyPreprocess resp) = Except.error e →
      classify (Except.ok resp)
          book_name character_name backstory graph_summary character_summary
        = Except.ok ⟨0, Json.jstr ("Error during classification: " ++ e), []⟩) := by
  constructor
  · exact ⟨_, rfl⟩
  · intro e he
    rw [classify_ok_eq, he]

/-- Witness for C6's amended theorem on a concrete unparsable response. -/
theorem classify_safe_on_any_response_witness :
    parseClassification (classifyPreprocess "plainly not json")
      = Except.error "invalid JSON" ∧
    classify (Except.ok "plainly not json") "b" "c" "s" "g" "cs"
      = Except.ok ⟨0, Json.jstr "Error during classification: invalid JSON", []⟩ :=
  ⟨rfl,
   (classify_safe_on_any_response "b" "c" "s" "g" "cs" "plainly not json").2
     "invalid JSON" rfl⟩

/-- One evidence dictionary as passed to the extractor
(`{'id': ..., 'text': ...}`). -/
structure RawEvidence where
  id : String
  text : String
deriving DecidableEq

/-- The `Triplet` schema of graph_creator_agent/types.py: four string
fields. -/
structure RawTriplet where
  subject : String
  relation : String
  object : String
  evidence_id : String
deriving DecidableEq

/-- The `` ```json `` marker searched for by the extractor fallback. -/
def backtickJsonChars : List Char :=
  [backquoteChar, backquoteChar, backquoteChar, 'j', 's', 'o', 'n']

/-- The fence-stripping step of the extractor fallback
(extractor.py lines 77-86): when a code fence is present, slice from the
first `[` to the last `]` when that span is non-empty; otherwise, when a
`` ```json `` fence is present, slice between the braces unconditionally
(Python slice semantics, so an absent brace gives index `-1`). -/
def extractorFallbackSlice (rt : List Char) : List Char :=
  if containsChars tripleBacktickChars rt then
    let start := pyFind '[' rt
    let stop := pyRfind ']' rt + 1
    if start ≠ -1 ∧ stop > start then pySliceClamped rt start stop
    else if containsChars backtickJsonChars rt then
      pySliceClamped rt (pyFind lcurly rt) (pyRfind rcurly rt + 1)
    else rt
  else rt

/-- The JSON-recovery step of the extractor fallback
(extractor.py lines 88-110), producing the list Python then iterates over.
`none` models every path on which the Python code raises out of the inner
block (caught by the outer `except`, which returns the triplets collected so
far — none at this point): a document that is neither a list nor a
`triplets`-keyed object, a re-parse failure, or a `triplets` value that is
not a list (iterating or subscripting it raises before anything is kept). -/
def extractorFallbackParse (rt : List Char) : Option (List Json) :=
  match parseTopLevel (String.mk rt) with
  | some (Json.jarr l) => some l
  | some (Json.jobj fields) =>
    (match jsonObjGet fields "triplets" with
      | some (Json.jarr l) => some l
      | _ => none)
  | some _ => none
  | none =>
    let start_list := pyFind '[' rt
    let start_dict := pyFind lcurly rt
    if start_list ≠ -1 ∧ (start_dict = -1 ∨ start_list < start_dict) then
      match parseTopLevel (String.mk (pySliceClamped rt start_list (pyRfind ']' rt + 1))) with
      | some (Json.jarr l) => some l
      | _ => none
    else if start_dict ≠ -1 then
      match parseTopLevel
          (String.mk (pySliceClamped rt start_dict (pyRfind rcurly rt + 1))) with
      | some (Json.jobj fields) =>
        (match jsonObjGet fields "triplets" with
          | some (Json.jarr l) => some l
          | none => some []
          | some _ => none)
      | _ => none
    else none

/-- Evaluation of `all(key in triplet for key in [...])` on one iterated item
(extractor.py line 114): key membership for an object, substring containment
for a string, element equality for a list; `none` when Python's `in` raises
`TypeError` (numbers, booleans, `null`). -/
def tripletKeysPresent (t : Json) : Option Bool :=
  match t with
  | Json.jobj fields =>
    some (["subject", "relation", "object", "evidence_id"].all
      (fun k => (jsonObjGet fields k).isSome))
  | Json.jstr s =>
    some (["subject", "relation", "object", "evidence_id"].all
      (fun k => containsChars k.data s.data))
  | Json.jarr l =>
    some (["subject", "relation", "object", "evidence_id"].all
      (fun k => l.any (fun e => match e with
        | Json.jstr s => s = k
        | _ => false)))
  | _ => none

/-- Construction of `Triplet(subject=..., ...)` from one kept item
(extractor.py lines 115-120): the four subscripts followed by the pydantic
string validation; `none` models the subscript or validation raising. -/
def tripletFieldsOf (t : Json) : Option RawTriplet :=
  match t with
  | Json.jobj fields =>
    (match jsonObjGet fields "subject", jsonObjGet fields "relation",
        jsonObjGet fields "object", jsonObjGet fields "evidence_id" with
      | some (Json.jstr s), some (Json.jstr r), some (Json.jstr o),
          some (Json.jstr e) => some ⟨s, r, o, e⟩
      | _, _, _, _ => none)
  | _ => none

/-- The fallback collection loop (extractor.py lines 113-120): items missing
a key are skipped; an item on which the check or the construction raises
aborts the loop, and the outer `except` returns the triplets collected so
far. -/
def extractorCollect : List Json → List RawTriplet → List RawTriplet
  | [], acc => acc
  | t :: rest, acc =>
    match tripletKeysPresent t with
    | none => acc
    | some false => extractorCollect rest acc
    | some true =>
      match tripletFieldsOf t with
      | none => acc
      | some trip => extractorCollect rest (acc ++ [trip])

/-- `generate_triplets` (graph_creator_agent/extractor.py lines 14-125), with
the two model interactions as parameters: `structuredResp` is the triplet
list of the structured-output call (`none` when that call raises, sending
control to the fallback), and `fallbackResp` is the raw text of the plain
`llm.invoke` retry (`none` when it raises, giving the empty result).  The
structured path drops only triplets whose `evidence_id` is empty (falsy);
neither path compares `evidence_id` against the ids of `evidence_list`. -/
def generate_triplets (evidence_list : List RawEvidence)
    (structuredResp : Option (List RawTriplet))
    (fallbackResp : Option String) : List RawTriplet :=
  if evidence_list.isEmpty then []
  else
    match structuredResp with
    | some ts => ts.filter (fun t => t.evidence_id ≠ "")
    | none =>
      match fallbackResp with
      | none => []
      | some content =>
        let rt := extractorFallbackSlice (pyStrip content.data)
        match extractorFallbackParse rt with
        | none => []
        | some triplets => extractorCollect triplets []

/-- C4: refuted on the wired-in extractor.  In both the structured path and
the JSON fallback, a triplet whose `evidence_id` is not among the ids of the
supplied evidence — here `evX` against the single supplied id `ev1` — is kept
and returned to the graph merge: `generate_triplets` never compares the cited
id with the supplied ids.  (The parallel implementation in
`graphcreator.py`, which `main.py` does not import, performs the check the
specification describes.) -/
theorem generate_triplets_keeps_foreign_evidence_id :
    generate_triplets [⟨"ev1", "some passage"⟩]
        (some [⟨"A", "r", "B", "evX"⟩]) none
      = [⟨"A", "r", "B", "evX"⟩] ∧
    generate_triplets [⟨"ev1", "some passage"⟩] none
        (some "[\x7b\"subject\": \"A\", \"relation\": \"r\", \"object\": \"B\", \"evidence_id\": \"evX\"\x7d]")
      = [⟨"A", "r", "B", "evX"⟩] ∧
    ¬ ("evX" ∈ ["ev1"]) := by
  refine ⟨by decide, by decide, by decide⟩

/-- A concrete reranker for exercising `retrieve_topk`: score by text
length. -/
def witnessReranker : String → String → ℚ := fun _ t => (t.length : ℚ)

/-- A concrete vector-search result with one candidate. -/
def witnessHits : List QdrantHit :=
  [⟨"7", some 1, some "c1", some "text one", none, none⟩]

/-- Witness for C9 at a concrete retrieval: the result respects the length
bound, the returned item's `score` is the reranker's score for its text, and
an empty candidate set gives the empty result for any reranker. -/
theorem retrieve_topk_spec_witness :
    (retrieve_topk witnessReranker witnessHits "q" 2).length ≤ 2 ∧
    (⟨"c1", "text one", 8, 1, none, none⟩ : RetrievedChunk)
        ∈ retrieve_topk witnessReranker witnessHits "q" 2 ∧
    (⟨"c1", "text one", 8, 1, none, none⟩ : RetrievedChunk).score
      = witnessReranker "q" (⟨"c1", "text one", 8, 1, none, none⟩ : RetrievedChunk).text ∧
    retrieve_topk witnessReranker [] "q" 2 = [] := by
  obtain ⟨h1, h2, h3, h4⟩ := retrieve_topk_spec witnessReranker witnessHits "q" 2
  have hmem : (⟨"c1", "text one", 8, 1, none, none⟩ : RetrievedChunk)
      ∈ retrieve_topk witnessReranker witnessHits "q" 2 := by
    simp only [retrieve_topk, witnessHits, witnessReranker, List.isEmpty_cons,
      List.map_cons, List.map_nil, List.mergeSort_singleton]
    norm_num [Option.getD, List.take]
    decide
  exact ⟨h1, hmem, h3 _ hmem, ((h4 witnessReranker).1)⟩
